import Mathlib

/-!
# Verification of the edx-platform registration validator and course batch generator

Two components are modelled:

* the **registration field validator** (the web endpoint validating
  name/email/confirm_email/username/password/country values); its view code is
  not part of the provided sources (only its tests are), so the validator is
  modelled from the specification;
* the **course batch generator**
  (`cms/djangoapps/contentstore/management/commands/generate_courses.py`),
  embedded directly from the source.

Form data, JSON objects and decision mappings are association lists
`List (String × _)`; logging is modelled as a list of events.
-/

set_option autoImplicit false

namespace EdxPlatform

/-- First-match association-list lookup (the dictionary access used for form
data, JSON objects and decision mappings). -/
def lookupKey {α : Type} (k : String) : List (String × α) → Option α
  | [] => none
  | (k2, v) :: rest => if k2 = k then some v else lookupKey k rest

/-- Membership test on a list of strings (python `in`). -/
def memStr (k : String) : List String → Bool
  | [] => false
  | a :: rest => if a = k then true else memStr k rest

/-- Remove the first occurrence of a string (python `list.remove`). -/
def removeStr (k : String) : List String → List String
  | [] => []
  | a :: rest => if a = k then rest else a :: removeStr k rest

/-- Remove every entry with the given key from an association list. -/
def removeKey {α : Type} (k : String) : List (String × α) → List (String × α)
  | [] => []
  | (k2, v) :: rest => if k2 = k then removeKey k rest else (k2, v) :: removeKey k rest

/-! ## Registration field validator

Modelled from the spec: the validator view and the per-field validation
functions of the accounts API are not among the provided source files (only
their tests are), so the definitions below follow the specification text:
fixed length bounds, a generic email-syntax predicate, a feature-flag-selected
username character set, a country reference list and the name policy are
abstracted into a configuration record, and the account store is a list of
records with a username and an email. -/

/-- An existing account in the external account store. -/
structure Account where
  username : String
  email : String
  deriving DecidableEq, Repr

/-- The external account store: the list of existing accounts. -/
abbrev Store := List Account

/-- Modelled from the spec: the fixed configuration of the validator — length
bounds, the `ENABLE_UNICODE_USERNAME` feature flag, the generic email syntax
check, the two username character sets and the country reference list. -/
structure ValidatorConfig where
  EMAIL_MAX_LENGTH : Nat
  USERNAME_MIN_LENGTH : Nat
  USERNAME_MAX_LENGTH : Nat
  PASSWORD_MIN_LENGTH : Nat
  PASSWORD_MAX_LENGTH : Nat
  ENABLE_UNICODE_USERNAME : Bool
  emailSyntaxOk : String → Bool
  usernameCharOkAscii : Char → Bool
  usernameCharOkUnicode : Char → Bool
  validCountry : String → Bool
  nameOk : String → Bool

def EMAIL_BAD_LENGTH_MSG : String :=
  "Email cannot be empty or longer than the maximum allowed length"

def EMAIL_INVALID_MSG (email : String) : String :=
  "The email address you provided is not valid: " ++ email

def EMAIL_CONFLICT_MSG (email_address : String) : String :=
  "It looks like the email " ++ email_address ++ " belongs to an existing account"

def USERNAME_BAD_LENGTH_MSG : String :=
  "Username must be between the minimum and maximum length"

def USERNAME_INVALID_CHARS_ASCII : String :=
  "Usernames can only contain letters, numerals, and a few punctuation marks"

def USERNAME_INVALID_CHARS_UNICODE : String :=
  "Usernames can only contain letters and a few other characters"

def USERNAME_CONFLICT_MSG (username : String) : String :=
  "It looks like the username " ++ username ++ " belongs to an existing account"

def PASSWORD_EMPTY_MSG : String :=
  "Password cannot be empty"

def PASSWORD_BAD_MIN_LENGTH_MSG : String :=
  "Password is too short"

def PASSWORD_BAD_MAX_LENGTH_MSG : String :=
  "Password is too long"

def PASSWORD_CANT_EQUAL_USERNAME_MSG : String :=
  "Password cannot be the same as the username"

def REQUIRED_FIELD_CONFIRM_EMAIL_MSG : String :=
  "The email addresses do not match"

def NAME_INVALID_MSG : String :=
  "The name you provided is not valid"

def COUNTRY_INVALID_MSG : String :=
  "The country you selected is not recognized"

/-- Modelled from the spec: does an account with this email already exist in
the store (the uniqueness lookup against the user table)? -/
def email_exists (store : Store) (email : String) : Bool :=
  store.any fun a => a.email == email

/-- Modelled from the spec: is this username already taken in the store? -/
def username_exists (store : Store) (username : String) : Bool :=
  store.any fun a => a.username == username

/-- Modelled from the spec: email decision — bad length (empty or above the
fixed maximum), then generic syntax, then conflict against the store, first
failure wins; empty string when all three pass. -/
def validate_email (cfg : ValidatorConfig) (store : Store) (email : String) : String :=
  if email.length = 0 ∨ cfg.EMAIL_MAX_LENGTH < email.length then EMAIL_BAD_LENGTH_MSG
  else if cfg.emailSyntaxOk email = false then EMAIL_INVALID_MSG email
  else if email_exists store email then EMAIL_CONFLICT_MSG email
  else ""

/-- Modelled from the spec: all characters of the username lie in the active
allowed set, selected by the `ENABLE_UNICODE_USERNAME` feature flag. -/
def username_chars_ok (cfg : ValidatorConfig) (username : String) : Bool :=
  username.data.all fun ch =>
    if cfg.ENABLE_UNICODE_USERNAME then cfg.usernameCharOkUnicode ch
    else cfg.usernameCharOkAscii ch

/-- Modelled from the spec: username decision — bad length (below the minimum
or above the maximum), then invalid characters (message variant selected by
the feature flag), then conflict against the store. -/
def validate_username (cfg : ValidatorConfig) (store : Store) (username : String) : String :=
  if username.length < cfg.USERNAME_MIN_LENGTH ∨ cfg.USERNAME_MAX_LENGTH < username.length then
    USERNAME_BAD_LENGTH_MSG
  else if username_chars_ok cfg username = false then
    if cfg.ENABLE_UNICODE_USERNAME then USERNAME_INVALID_CHARS_UNICODE
    else USERNAME_INVALID_CHARS_ASCII
  else if username_exists store username then USERNAME_CONFLICT_MSG username
  else ""

/-- Modelled from the spec: password decision — empty, then minimum length,
then maximum length, then equality with the submitted username (only checked
when a username was submitted in the same request). -/
def validate_password (cfg : ValidatorConfig) (password : String)
    (username : Option String) : String :=
  if password = "" then PASSWORD_EMPTY_MSG
  else if password.length < cfg.PASSWORD_MIN_LENGTH then PASSWORD_BAD_MIN_LENGTH_MSG
  else if cfg.PASSWORD_MAX_LENGTH < password.length then PASSWORD_BAD_MAX_LENGTH_MSG
  else if username = some password then PASSWORD_CANT_EQUAL_USERNAME_MSG
  else ""

/-- Modelled from the spec: confirm_email decision — fails when empty or when
not exactly equal to the submitted email value. -/
def validate_confirm_email (confirm_email : String) (email : Option String) : String :=
  if confirm_email = "" then REQUIRED_FIELD_CONFIRM_EMAIL_MSG
  else if email = some confirm_email then ""
  else REQUIRED_FIELD_CONFIRM_EMAIL_MSG

/-- Modelled from the spec: name decision — fails when blank or rejected by
the existing name-validation policy. -/
def validate_name (cfg : ValidatorConfig) (name : String) : String :=
  if name = "" then NAME_INVALID_MSG
  else if cfg.nameOk name = false then NAME_INVALID_MSG
  else ""

/-- Modelled from the spec: country decision — fails when not a recognized
country code from the fixed reference list. -/
def validate_country (cfg : ValidatorConfig) (country : String) : String :=
  if cfg.validCountry country then "" else COUNTRY_INVALID_MSG

/-- The six recognized field names, in the fixed order the view checks them. -/
def recognizedFields : List String :=
  ["name", "email", "confirm_email", "username", "password", "country"]

/-- Modelled from the spec: the decision for one recognized field given its
submitted value; `confirm_email` reads the submitted `email` value and
`password` reads the submitted `username` value from the same request. -/
def fieldDecision (cfg : ValidatorConfig) (store : Store)
    (req : List (String × String)) (field value : String) : String :=
  if field = "name" then validate_name cfg value
  else if field = "email" then validate_email cfg store value
  else if field = "confirm_email" then validate_confirm_email value (lookupKey "email" req)
  else if field = "username" then validate_username cfg store value
  else if field = "password" then validate_password cfg value (lookupKey "username" req)
  else if field = "country" then validate_country cfg value
  else ""

/-- The decision entry for a field: present exactly when the field is present
in the request. -/
def decisionOf (cfg : ValidatorConfig) (store : Store)
    (req : List (String × String)) (field : String) : Option String :=
  (lookupKey field req).map (fieldDecision cfg store req field)

/-- Modelled from the spec: the validator — each present recognized field is
run through its validation function; absent fields and unrecognized keys
produce no entry. -/
def validate (cfg : ValidatorConfig) (store : Store)
    (req : List (String × String)) : List (String × String) :=
  recognizedFields.filterMap fun f => (decisionOf cfg store req f).map fun d => (f, d)

/-! ## Course batch generator

Embedded from
`cms/djangoapps/contentstore/management/commands/generate_courses.py`.
A course descriptor is the JSON object of one list element: the five keys the
command reads are explicit fields (`none` = key absent), and `extra` carries
any other keys of the object (such as a `store` value), which the command
never reads.  A field value inside the `fields` map is `Option String`, with
`none` standing for JSON `null`.  Logging and course creation are modelled as
a list of events; the allow-list of settable course attributes (computed at
runtime from `CourseFields.__dict__` minus the dunder and disabled names,
which live outside the provided sources) is a parameter `availableFields`. -/

/-- One course descriptor of the JSON `courses` list. -/
structure CourseSettings where
  organization : Option String
  number : Option String
  run : Option String
  user : Option String
  fields : Option (List (String × Option String))
  extra : List (String × String)
  deriving DecidableEq, Repr

/-- The observable actions of the command: warnings, info logs and the course
creation request (which records the modulestore name it is sent to). -/
inductive Event where
  | warnMissingSettings (missing : List String)
  | warnMissingDisplayName
  | warnCantCreate
  | infoInvalidFields (names : List String)
  | infoDefaultedFields (names : List String)
  | created (store : String) (user : String) (org : String) (num : String)
      (run : String) (fields : List (String × Option String))
  | infoCreatedId (org : String) (num : String) (run : String)
  deriving DecidableEq, Repr

/-- The modulestore a `created` event was sent to (`none` for log events). -/
def Event.storeOf : Event → Option String
  | .created st _ _ _ _ _ => some st
  | _ => none

/-- The help text of the `courses` argument (`Command.add_arguments`). -/
def coursesArgHelp : String :=
  "JSON object with values for store, user, name, organization, number, fields"

/-- The required settings the descriptor is missing, in the fixed order the
command checks them. -/
def missingSettings (c : CourseSettings) : List String :=
  (if (c.organization).isNone then ["organization"] else []) ++
    (if (c.number).isNone then ["number"] else []) ++
    (if (c.run).isNone then ["run"] else []) ++
    (if (c.fields).isNone then ["fields"] else [])

/-- Is a `fields`-map entry set to a non-null value? -/
def isSetNonNull : Option (Option String) → Bool
  | some (some _) => true
  | _ => false

/-- The display-name check of `_course_is_valid`: fires when `fields` is
present but `display_name` is absent from it or null. -/
def displayNameMissing : Option (List (String × Option String)) → Bool
  | none => false
  | some fl => !(isSetNonNull (lookupKey "display_name" fl))

/-- The warning about missing required settings, emitted when any are. -/
def settingsWarnings (c : CourseSettings) : List Event :=
  if (missingSettings c).isEmpty then []
  else [Event.warnMissingSettings (missingSettings c)]

/-- `Command._course_is_valid`: required settings present, and `fields`
contains a non-null `display_name`; returns the verdict and the warnings. -/
def course_is_valid (c : CourseSettings) : Bool × List Event :=
  if displayNameMissing c.fields then
    (false, settingsWarnings c ++ [Event.warnMissingDisplayName])
  else ((missingSettings c).isEmpty, settingsWarnings c)

/-- The field loop of `Command._process_course_fields_settings`: walks the
submitted `fields` map with the mutable `available_fields` list, returning the
kept entries (`valid_fields`), the rejected keys (`invalid_fields`) and what
is left of `available_fields`. -/
def processFieldsLoop : List String → List (String × Option String) →
    List (String × Option String) × List String × List String
  | avail, [] => ([], [], avail)
  | avail, (k, v) :: rest =>
    if memStr k avail then
      match v with
      | none => processFieldsLoop avail rest
      | some s =>
        let r := processFieldsLoop (removeStr k avail) rest
        ((k, some s) :: r.1, r.2.1, r.2.2)
    else
      let r := processFieldsLoop avail rest
      (r.1, k :: r.2.1, r.2.2)

/-- `Command._process_course_fields_settings`: the filtered fields plus the
two info logs, each emitted only when its list is non-empty. -/
def process_course_fields_settings (availableFields : List String)
    (fields : List (String × Option String)) :
    List (String × Option String) × List Event :=
  ((processFieldsLoop availableFields fields).1,
    (if ((processFieldsLoop availableFields fields).2.1).isEmpty then []
     else [Event.infoInvalidFields (processFieldsLoop availableFields fields).2.1]) ++
    (if ((processFieldsLoop availableFields fields).2.2).isEmpty then []
     else [Event.infoDefaultedFields (processFieldsLoop availableFields fields).2.2]))

/-- The body of the per-course loop in `Command.handle`: an invalid descriptor
is skipped with a warning; a valid one has its fields filtered and a creation
request issued against the hard-coded "split" store, owned by the `user` value
or the fallback account. -/
def processCourse (availableFields : List String) (c : CourseSettings) : List Event :=
  if (course_is_valid c).1 = false then
    (course_is_valid c).2 ++ [Event.warnCantCreate]
  else
    (course_is_valid c).2
      ++ (process_course_fields_settings availableFields ((c.fields).getD [])).2
      ++ [Event.created "split" ((c.user).getD "edx@example.com")
            ((c.organization).getD "") ((c.number).getD "") ((c.run).getD "")
            (process_course_fields_settings availableFields ((c.fields).getD [])).1,
          Event.infoCreatedId ((c.organization).getD "") ((c.number).getD "")
            ((c.run).getD "")]

/-- The per-course loop of `Command.handle` over the whole `courses` list. -/
def handleCourses (availableFields : List String) : List CourseSettings → List Event
  | [] => []
  | c :: rest => processCourse availableFields c ++ handleCourses availableFields rest

/-- `Command.handle`: the guard for development mode, the JSON parse and the
`courses` key access (each aborting with a `CommandError`), then the loop.
The parsed argument is `none` for invalid JSON and `some none` for a JSON
object without a `courses` list. -/
def handle (availableFields : List String) (debugMode : Bool)
    (arg : Option (Option (List CourseSettings))) : Except String (List Event) :=
  if debugMode = false then
    Except.error "Command should only be run in development environments"
  else
    match arg with
    | none => Except.error "Invalid JSON object"
    | some none => Except.error "JSON object is missing courses list"
    | some (some courses) => Except.ok (handleCourses availableFields courses)

/-- Has some entry of the `fields` map set this attribute to a non-null
value?  (Used to state which allowed attributes will be defaulted.) -/
def setsNonNull (a : String) : List (String × Option String) → Bool
  | [] => false
  | (k, v) :: rest => if k = a then (v.isSome || setsNonNull a rest) else setsNonNull a rest

/-! ## Concrete instances used to evaluate the model -/

/-- A concrete validator configuration (bounds and executable predicates). -/
def cfgA : ValidatorConfig where
  EMAIL_MAX_LENGTH := 254
  USERNAME_MIN_LENGTH := 2
  USERNAME_MAX_LENGTH := 30
  PASSWORD_MIN_LENGTH := 2
  PASSWORD_MAX_LENGTH := 75
  ENABLE_UNICODE_USERNAME := false
  emailSyntaxOk := fun s => s.data.contains '@'
  usernameCharOkAscii := fun ch => ch.isAlphanum || ch == '_' || ch == '-'
  usernameCharOkUnicode := fun ch => !(ch == ' ')
  validCountry := fun s => s == "US" || s == "FR"
  nameOk := fun s => !(s.data.isEmpty)

/-- The account store of the existence-conflict tests: one existing account
with username `user` and email `user@email.com`. -/
def storeA : Store := [{ username := "user", email := "user@email.com" }]

/-- A concrete allow-list of settable course attributes, standing for the
`CourseFields` attributes minus the dunder and disabled names. -/
def availA : List String :=
  ["display_name", "mobile_available", "self_paced", "language", "wiki_slug"]

/-- A concrete valid course descriptor (the one of the creation test). -/
def courseA : CourseSettings where
  organization := some "test-course-generator"
  number := some "1"
  run := some "1"
  user := some "edx@example.com"
  fields := some [("display_name", some "test-course")]
  extra := []

/-- A concrete invalid course descriptor: `organization` is missing. -/
def courseMissingOrg : CourseSettings where
  organization := none
  number := some "1"
  run := some "1"
  user := some "edx@example.com"
  fields := some [("display_name", some "test-course")]
  extra := []

/-- A concrete submitted `fields` map: one allow-listed non-null entry, one
unknown key and one allow-listed null entry. -/
def fieldsW : List (String × Option String) :=
  [("display_name", some "test-course"), ("invalid_field", some "invalid_value"),
    ("language", none)]

/-- A concrete descriptor whose `fields` map carries a null `display_name`. -/
def courseNullDisplayName : CourseSettings where
  organization := some "test-course-generator"
  number := some "1"
  run := some "1"
  user := some "edx@example.com"
  fields := some [("display_name", none)]
  extra := []

/-! ## Helper lemmas on association lists -/

theorem lookupKey_eq_none {α : Type} (f : String) (req : List (String × α))
    (h : ∀ kv ∈ req, kv.1 ≠ f) : lookupKey f req = none := by
  induction req with
  | nil => rfl
  | cons kv rest ih =>
    obtain ⟨k, v⟩ := kv
    have hk : k ≠ f := h (k, v) (List.mem_cons_self _ _)
    simp only [lookupKey, if_neg hk]
    exact ih fun kv hkv => h kv (List.mem_cons_of_mem _ hkv)

theorem lookupKey_keyed_notMem {α : Type} (e : String → Option α)
    (fs : List String) (f : String) (hf : f ∉ fs) :
    lookupKey f (fs.filterMap fun g => (e g).map fun v => (g, v)) = none := by
  induction fs with
  | nil => rfl
  | cons g rest ih =>
    simp only [List.mem_cons, not_or] at hf
    cases hg : e g with
    | none => simpa [List.filterMap_cons, hg] using ih hf.2
    | some v =>
      simp only [List.filterMap_cons, hg, Option.map_some, lookupKey]
      rw [if_neg (fun hgf => hf.1 hgf.symm)]
      exact ih hf.2

theorem lookupKey_keyed_mem {α : Type} (e : String → Option α)
    (fs : List String) (f : String) (hnd : fs.Nodup) (hf : f ∈ fs) :
    lookupKey f (fs.filterMap fun g => (e g).map fun v => (g, v)) = e f := by
  induction fs with
  | nil => cases hf
  | cons g rest ih =>
    rw [List.nodup_cons] at hnd
    rcases List.mem_cons.mp hf with hfg | hfr
    · subst hfg
      cases hg : e f with
      | none =>
        simp only [List.filterMap_cons, hg, Option.map_none]
        exact lookupKey_keyed_notMem e rest f hnd.1
      | some v => simp [List.filterMap_cons, hg, lookupKey]
    · have hfg : f ≠ g := fun h => hnd.1 (h ▸ hfr)
      cases hg : e g with
      | none => simpa [List.filterMap_cons, hg] using ih hnd.2 hfr
      | some v =>
        simp only [List.filterMap_cons, hg, Option.map_some, lookupKey]
        rw [if_neg (fun hgf => hfg hgf.symm)]
        exact ih hnd.2 hfr

theorem keys_keyed {α : Type} (e : String → Option α) (fs : List String) :
    (fs.filterMap fun g => (e g).map fun v => (g, v)).map Prod.fst
      = fs.filter fun g => (e g).isSome := by
  induction fs with
  | nil => rfl
  | cons g rest ih =>
    cases hg : e g with
    | none => simpa [List.filterMap_cons, hg, List.filter_cons] using ih
    | some v => simpa [List.filterMap_cons, hg, List.filter_cons] using ih

theorem lookupKey_removeKey {α : Type} (k : String) (l : List (String × α)) :
    lookupKey k (removeKey k l) = none := by
  induction l with
  | nil => rfl
  | cons kv rest ih =>
    obtain ⟨k2, v⟩ := kv
    by_cases h : k2 = k
    · rw [removeKey, if_pos h]
      exact ih
    · rw [removeKey, if_neg h, lookupKey, if_neg h]
      exact ih

theorem recognizedFields_nodup : recognizedFields.Nodup := by decide

/-- The decision mapping looks up to exactly the per-field decision. -/
theorem lookupKey_validate (cfg : ValidatorConfig) (store : Store)
    (req : List (String × String)) (f : String) (hf : f ∈ recognizedFields) :
    lookupKey f (validate cfg store req) = decisionOf cfg store req f :=
  lookupKey_keyed_mem (decisionOf cfg store req) recognizedFields f
    recognizedFields_nodup hf

/-! ## Non-emptiness of the error messages -/

theorem append2_ne_empty (p e : String) (hp : p.length ≠ 0) : p ++ e ≠ "" := by
  intro h
  have h2 := congrArg String.length h
  simp only [String.length_append] at h2
  have h0 : ("" : String).length = 0 := rfl
  omega

theorem append3_ne_empty (p e s : String) (hp : p.length ≠ 0) : p ++ e ++ s ≠ "" := by
  intro h
  have h2 := congrArg String.length h
  simp only [String.length_append] at h2
  have h0 : ("" : String).length = 0 := rfl
  omega

theorem EMAIL_INVALID_MSG_ne_empty (e : String) : EMAIL_INVALID_MSG e ≠ "" :=
  append2_ne_empty _ e (by decide)

theorem EMAIL_CONFLICT_MSG_ne_empty (e : String) : EMAIL_CONFLICT_MSG e ≠ "" :=
  append3_ne_empty _ e _ (by decide)

theorem USERNAME_CONFLICT_MSG_ne_empty (u : String) : USERNAME_CONFLICT_MSG u ≠ "" :=
  append3_ne_empty _ u _ (by decide)

/-! ## The account-store existence checks, as predicates -/

theorem email_exists_iff (store : Store) (e : String) :
    email_exists store e = true ↔ ∃ a ∈ store, a.email = e := by
  simp [email_exists, List.any_eq_true, beq_iff_eq]

theorem username_exists_iff (store : Store) (u : String) :
    username_exists store u = true ↔ ∃ a ∈ store, a.username = u := by
  simp [username_exists, List.any_eq_true, beq_iff_eq]

/-- **C1.** For a request containing an email value, the email decision runs
length, then syntax, then conflict — the first failing check determines the
message (the conflict message carrying the colliding address), and the
decision is the empty string exactly when all three checks pass. -/
theorem email_decision_checks (cfg : ValidatorConfig) (store : Store)
    (req : List (String × String)) (e : String)
    (he : lookupKey "email" req = some e) :
    lookupKey "email" (validate cfg store req) = some (validate_email cfg store e)
    ∧ (e.length = 0 ∨ cfg.EMAIL_MAX_LENGTH < e.length →
        validate_email cfg store e = EMAIL_BAD_LENGTH_MSG)
    ∧ (e.length ≠ 0 → e.length ≤ cfg.EMAIL_MAX_LENGTH →
        cfg.emailSyntaxOk e = false →
        validate_email cfg store e = EMAIL_INVALID_MSG e)
    ∧ (e.length ≠ 0 → e.length ≤ cfg.EMAIL_MAX_LENGTH →
        cfg.emailSyntaxOk e = true → (∃ a ∈ store, a.email = e) →
        validate_email cfg store e = EMAIL_CONFLICT_MSG e)
    ∧ (validate_email cfg store e = "" ↔
        e.length ≠ 0 ∧ e.length ≤ cfg.EMAIL_MAX_LENGTH
          ∧ cfg.emailSyntaxOk e = true ∧ ∀ a ∈ store, a.email ≠ e) := by
  refine ⟨?_, ?_, ?_, ?_, ?_⟩
  · rw [lookupKey_validate cfg store req "email" (by decide)]
    simp only [decisionOf, he, Option.map_some]
    rfl
  · intro h
    rw [validate_email, if_pos h]
  · intro h1 h2 h3
    rw [validate_email, if_neg (by omega), if_pos h3]
  · intro h1 h2 h3 h4
    rw [validate_email, if_neg (by omega)]
    rw [if_neg (by simp [h3])]
    rw [if_pos ((email_exists_iff store e).mpr h4)]
  · rw [validate_email]
    split_ifs with h1 h2 h3
    · exact iff_of_false (by decide) (fun hc => by omega)
    · exact iff_of_false (EMAIL_INVALID_MSG_ne_empty e)
        (fun hc => by simp [hc.2.2.1] at h2)
    · refine iff_of_false (EMAIL_CONFLICT_MSG_ne_empty e) (fun hc => ?_)
      obtain ⟨a, ha, hae⟩ := (email_exists_iff store e).mp h3
      exact hc.2.2.2 a ha hae
    · refine iff_of_true rfl ⟨by omega, by omega, ?_, ?_⟩
      · revert h2
        cases cfg.emailSyntaxOk e <;> simp
      · intro a ha hae
        exact h3 ((email_exists_iff store e).mpr ⟨a, ha, hae⟩)

/-- Witness for C1: evaluating the three failure branches and the passing
branch of the email decision on concrete inputs against the store holding
`user@email.com`. -/
theorem email_decision_checks_witness :
    lookupKey "email" (validate cfgA storeA [("email", "user@email.com")])
      = some (validate_email cfgA storeA "user@email.com")
    ∧ validate_email cfgA storeA "" = EMAIL_BAD_LENGTH_MSG
    ∧ validate_email cfgA storeA "email" = EMAIL_INVALID_MSG "email"
    ∧ validate_email cfgA storeA "user@email.com" = EMAIL_CONFLICT_MSG "user@email.com"
    ∧ validate_email cfgA storeA "username@email.com" = "" := by
  refine ⟨(email_decision_checks cfgA storeA [("email", "user@email.com")]
      "user@email.com" rfl).1, ?_, ?_, ?_, ?_⟩
  · exact (email_decision_checks cfgA storeA [("email", "")] "" rfl).2.1 (Or.inl rfl)
  · exact (email_decision_checks cfgA storeA [("email", "email")] "email" rfl).2.2.1
      (by decide) (by decide) (by decide)
  · exact (email_decision_checks cfgA storeA [("email", "user@email.com")]
      "user@email.com" rfl).2.2.2.1 (by decide) (by decide) (by decide)
      ⟨{ username := "user", email := "user@email.com" }, by decide, rfl⟩
  · exact (email_decision_checks cfgA storeA [("email", "username@email.com")]
      "username@email.com" rfl).2.2.2.2.mpr
      ⟨by decide, by decide, by decide, by decide⟩

/-- **C2.** For a request containing a username value, the username decision
runs length, then allowed characters (variant selected by the feature flag),
then conflict — and is empty exactly when all checks pass. -/
theorem username_decision_checks (cfg : ValidatorConfig) (store : Store)
    (req : List (String × String)) (u : String)
    (hu : lookupKey "username" req = some u) :
    lookupKey "username" (validate cfg store req) = some (validate_username cfg store u)
    ∧ (u.length < cfg.USERNAME_MIN_LENGTH ∨ cfg.USERNAME_MAX_LENGTH < u.length →
        validate_username cfg store u = USERNAME_BAD_LENGTH_MSG)
    ∧ (cfg.USERNAME_MIN_LENGTH ≤ u.length → u.length ≤ cfg.USERNAME_MAX_LENGTH →
        username_chars_ok cfg u = false →
        validate_username cfg store u =
          if cfg.ENABLE_UNICODE_USERNAME then USERNAME_INVALID_CHARS_UNICODE
          else USERNAME_INVALID_CHARS_ASCII)
    ∧ (cfg.USERNAME_MIN_LENGTH ≤ u.length → u.length ≤ cfg.USERNAME_MAX_LENGTH →
        username_chars_ok cfg u = true → (∃ a ∈ store, a.username = u) →
        validate_username cfg store u = USERNAME_CONFLICT_MSG u)
    ∧ (validate_username cfg store u = "" ↔
        cfg.USERNAME_MIN_LENGTH ≤ u.length ∧ u.length ≤ cfg.USERNAME_MAX_LENGTH
          ∧ username_chars_ok cfg u = true ∧ ∀ a ∈ store, a.username ≠ u) := by
  refine ⟨?_, ?_, ?_, ?_, ?_⟩
  · rw [lookupKey_validate cfg store req "username" (by decide)]
    simp only [decisionOf, hu, Option.map_some]
    rfl
  · intro h
    rw [validate_username, if_pos h]
  · intro h1 h2 h3
    rw [validate_username, if_neg (by omega), if_pos h3]
  · intro h1 h2 h3 h4
    rw [validate_username, if_neg (by omega)]
    rw [if_neg (by simp [h3])]
    rw [if_pos ((username_exists_iff store u).mpr h4)]
  · rw [validate_username]
    split_ifs with h1 h2 hflag h3
    · exact iff_of_false (by decide) (fun hc => by omega)
    · exact iff_of_false (by decide) (fun hc => by simp [hc.2.2.1] at h2)
    · exact iff_of_false (by decide) (fun hc => by simp [hc.2.2.1] at h2)
    · refine iff_of_false (USERNAME_CONFLICT_MSG_ne_empty u) (fun hc => ?_)
      obtain ⟨a, ha, hau⟩ := (username_exists_iff store u).mp h3
      exact hc.2.2.2 a ha hau
    · refine iff_of_true rfl ⟨by omega, by omega, ?_, ?_⟩
      · revert h2
        cases username_chars_ok cfg u <;> simp
      · intro a ha hau
        exact h3 ((username_exists_iff store u).mpr ⟨a, ha, hau⟩)

/-- Witness for C2: the bad-length, invalid-character (ASCII mode), conflict
and passing branches of the username decision on concrete inputs. -/
theorem username_decision_checks_witness :
    lookupKey "username" (validate cfgA storeA [("username", "user")])
      = some (validate_username cfgA storeA "user")
    ∧ validate_username cfgA storeA "u" = USERNAME_BAD_LENGTH_MSG
    ∧ validate_username cfgA storeA "not valid" = USERNAME_INVALID_CHARS_ASCII
    ∧ validate_username cfgA storeA "user" = USERNAME_CONFLICT_MSG "user"
    ∧ validate_username cfgA storeA "username" = "" := by
  refine ⟨(username_decision_checks cfgA storeA [("username", "user")] "user" rfl).1,
    ?_, ?_, ?_, ?_⟩
  · exact (username_decision_checks cfgA storeA [("username", "u")] "u" rfl).2.1
      (Or.inl (by decide))
  · exact (username_decision_checks cfgA storeA [("username", "not valid")]
      "not valid" rfl).2.2.1 (by decide) (by decide) (by decide)
  · exact (username_decision_checks cfgA storeA [("username", "user")] "user" rfl).2.2.2.1
      (by decide) (by decide) (by decide)
      ⟨{ username := "user", email := "user@email.com" }, by decide, rfl⟩
  · exact (username_decision_checks cfgA storeA [("username", "username")]
      "username" rfl).2.2.2.2.mpr ⟨by decide, by decide, by decide, by decide⟩

/-- **C3.** For a request containing a password value, the password decision
is the empty-password message when blank, then the min/max length messages,
then the equals-username message when a username was also submitted and is
identical to the password — and is empty exactly when none of these fail. -/
theorem password_decision_checks (cfg : ValidatorConfig) (store : Store)
    (req : List (String × String)) (p : String)
    (hp : lookupKey "password" req = some p) :
    lookupKey "password" (validate cfg store req)
      = some (validate_password cfg p (lookupKey "username" req))
    ∧ (p = "" → validate_password cfg p (lookupKey "username" req) = PASSWORD_EMPTY_MSG)
    ∧ (p ≠ "" → p.length < cfg.PASSWORD_MIN_LENGTH →
        validate_password cfg p (lookupKey "username" req) = PASSWORD_BAD_MIN_LENGTH_MSG)
    ∧ (p ≠ "" → cfg.PASSWORD_MIN_LENGTH ≤ p.length → cfg.PASSWORD_MAX_LENGTH < p.length →
        validate_password cfg p (lookupKey "username" req) = PASSWORD_BAD_MAX_LENGTH_MSG)
    ∧ (p ≠ "" → cfg.PASSWORD_MIN_LENGTH ≤ p.length → p.length ≤ cfg.PASSWORD_MAX_LENGTH →
        lookupKey "username" req = some p →
        validate_password cfg p (lookupKey "username" req) = PASSWORD_CANT_EQUAL_USERNAME_MSG)
    ∧ (validate_password cfg p (lookupKey "username" req) = "" ↔
        p ≠ "" ∧ cfg.PASSWORD_MIN_LENGTH ≤ p.length ∧ p.length ≤ cfg.PASSWORD_MAX_LENGTH
          ∧ ∀ u, lookupKey "username" req = some u → p ≠ u) := by
  refine ⟨?_, ?_, ?_, ?_, ?_, ?_⟩
  · rw [lookupKey_validate cfg store req "password" (by decide)]
    simp only [decisionOf, hp, Option.map_some]
    rfl
  · intro h
    rw [validate_password, if_pos h]
  · intro h1 h2
    rw [validate_password, if_neg h1, if_pos h2]
  · intro h1 h2 h3
    rw [validate_password, if_neg h1, if_neg (by omega), if_pos h3]
  · intro h1 h2 h3 h4
    rw [validate_password, if_neg h1, if_neg (by omega), if_neg (by omega), if_pos h4]
  · rw [validate_password]
    split_ifs with h1 h2 h3 h4
    · exact iff_of_false (by decide) (fun hc => hc.1 h1)
    · exact iff_of_false (by decide) (fun hc => by omega)
    · exact iff_of_false (by decide) (fun hc => by omega)
    · exact iff_of_false (by decide) (fun hc => hc.2.2.2 p h4 rfl)
    · refine iff_of_true rfl ⟨h1, by omega, by omega, ?_⟩
      intro u hu2 hpu
      exact h4 (by rw [hu2, hpu])

/-- Witness for C3: the empty, too-short, too-long, equals-username and
passing branches of the password decision on concrete requests. -/
theorem password_decision_checks_witness :
    lookupKey "password" (validate cfgA storeA
        [("username", "somephrase"), ("password", "somephrase")])
      = some (validate_password cfgA "somephrase"
          (lookupKey "username" [("username", "somephrase"), ("password", "somephrase")]))
    ∧ validate_password cfgA "somephrase"
        (lookupKey "username" [("username", "somephrase"), ("password", "somephrase")])
      = PASSWORD_CANT_EQUAL_USERNAME_MSG
    ∧ validate_password cfgA ""
        (lookupKey "username" ([] : List (String × String))) = PASSWORD_EMPTY_MSG
    ∧ validate_password cfgA "p"
        (lookupKey "username" ([] : List (String × String))) = PASSWORD_BAD_MIN_LENGTH_MSG
    ∧ validate_password cfgA "somephrase"
        (lookupKey "username" ([] : List (String × String))) = "" := by
  refine ⟨(password_decision_checks cfgA storeA
      [("username", "somephrase"), ("password", "somephrase")] "somephrase" rfl).1,
    (password_decision_checks cfgA storeA
      [("username", "somephrase"), ("password", "somephrase")] "somephrase" rfl).2.2.2.2.1
      (by decide) (by decide) (by decide) rfl,
    (password_decision_checks cfgA storeA [("password", "")] "" rfl).2.1 rfl,
    (password_decision_checks cfgA storeA [("password", "p")] "p" rfl).2.2.1
      (by decide) (by decide),
    (password_decision_checks cfgA storeA [("password", "somephrase")]
      "somephrase" rfl).2.2.2.2.2.mpr
      ⟨by decide, by decide, by decide, fun u hu => by cases hu⟩⟩

/-- **C4, counterexample.** The claim says the confirm_email decision is
empty exactly when confirm_email equals the submitted email; with both fields
submitted as the empty string the two values are equal character for
character, yet the decision is the mismatch message (an empty confirm_email
always fails). -/
theorem confirm_email_exact_equality_fails :
    lookupKey "confirm_email" [("email", ""), ("confirm_email", "")]
      = lookupKey "email" [("email", ""), ("confirm_email", "")]
    ∧ lookupKey "confirm_email" (validate cfgA [] [("email", ""), ("confirm_email", "")])
      = some REQUIRED_FIELD_CONFIRM_EMAIL_MSG
    ∧ REQUIRED_FIELD_CONFIRM_EMAIL_MSG ≠ "" := by
  refine ⟨rfl, ?_, by decide⟩
  rfl

/-- **C4, amended.** For a request containing both an email and a
confirm_email value, the confirm_email decision is the empty string exactly
when confirm_email is non-empty and equal to the submitted email value;
otherwise it is the required/mismatch message, and the email decision is the
plain email decision, unaffected by confirm_email. -/
theorem confirm_email_decision_checks (cfg : ValidatorConfig) (store : Store)
    (req : List (String × String)) (ce : String)
    (hce : lookupKey "confirm_email" req = some ce) :
    lookupKey "confirm_email" (validate cfg store req)
      = some (validate_confirm_email ce (lookupKey "email" req))
    ∧ (validate_confirm_email ce (lookupKey "email" req) = "" ↔
        ce ≠ "" ∧ lookupKey "email" req = some ce)
    ∧ (validate_confirm_email ce (lookupKey "email" req) ≠ "" →
        validate_confirm_email ce (lookupKey "email" req)
          = REQUIRED_FIELD_CONFIRM_EMAIL_MSG)
    ∧ (∀ e, lookupKey "email" req = some e →
        lookupKey "email" (validate cfg store req) = some (validate_email cfg store e)) := by
  refine ⟨?_, ?_, ?_, ?_⟩
  · rw [lookupKey_validate cfg store req "confirm_email" (by decide)]
    simp only [decisionOf, hce, Option.map_some]
    rfl
  · rw [validate_confirm_email]
    split_ifs with h1 h2
    · exact iff_of_false (by decide) (fun hc => hc.1 h1)
    · exact iff_of_true rfl ⟨h1, h2⟩
    · exact iff_of_false (by decide) (fun hc => h2 hc.2)
  · intro h
    rw [validate_confirm_email] at h ⊢
    split_ifs at h ⊢ with h1 h2
    · rfl
    · exact absurd rfl h
    · rfl
  · intro e he
    rw [lookupKey_validate cfg store req "email" (by decide)]
    simp only [decisionOf, he, Option.map_some]
    rfl

/-- Witness for C4 (amended): equal non-empty values pass, a differing value
and an empty value fail with the mismatch message, and the email decision
stays the plain email decision. -/
theorem confirm_email_decision_checks_witness :
    validate_confirm_email "user@email.com"
        (lookupKey "email" [("email", "user@email.com"), ("confirm_email", "user@email.com")])
      = ""
    ∧ validate_confirm_email "users@other.email"
        (lookupKey "email" [("email", "user@email.com"), ("confirm_email", "users@other.email")])
      = REQUIRED_FIELD_CONFIRM_EMAIL_MSG
    ∧ validate_confirm_email ""
        (lookupKey "email" [("email", "user@email.com"), ("confirm_email", "")])
      = REQUIRED_FIELD_CONFIRM_EMAIL_MSG
    ∧ lookupKey "email" (validate cfgA []
        [("email", "user@email.com"), ("confirm_email", "users@other.email")])
      = some (validate_email cfgA [] "user@email.com") := by
  refine ⟨?_, ?_, ?_, ?_⟩
  · exact (confirm_email_decision_checks cfgA []
      [("email", "user@email.com"), ("confirm_email", "user@email.com")]
      "user@email.com" rfl).2.1.mpr ⟨by decide, rfl⟩
  · exact (confirm_email_decision_checks cfgA []
      [("email", "user@email.com"), ("confirm_email", "users@other.email")]
      "users@other.email" rfl).2.2.1 (by decide)
  · exact (confirm_email_decision_checks cfgA []
      [("email", "user@email.com"), ("confirm_email", "")] "" rfl).2.2.1 (by decide)
  · exact (confirm_email_decision_checks cfgA []
      [("email", "user@email.com"), ("confirm_email", "users@other.email")]
      "users@other.email" rfl).2.2.2 "user@email.com" rfl

/-- **C5.** The key list of the decision mapping is exactly the recognized
field names present in the request, in the fixed order; a request whose keys
are all unrecognized (in particular an empty request) yields an empty
decision mapping. -/
theorem validate_keys_spec (cfg : ValidatorConfig) (store : Store)
    (req : List (String × String)) :
    (validate cfg store req).map Prod.fst
      = recognizedFields.filter (fun f => (lookupKey f req).isSome)
    ∧ ((∀ kv ∈ req, kv.1 ∉ recognizedFields) → validate cfg store req = []) := by
  constructor
  · rw [validate, keys_keyed]
    refine List.filter_congr fun f _ => ?_
    simp only [decisionOf]
    cases lookupKey f req <;> rfl
  · intro h
    have hnone : ∀ f ∈ recognizedFields, lookupKey f req = none := by
      intro f hf
      exact lookupKey_eq_none f req fun kv hkv hk => h kv hkv (hk ▸ hf)
    rw [validate]
    refine List.filterMap_eq_nil_iff.mpr fun f hf => ?_
    simp [decisionOf, hnone f hf]

/-- Witness for C5: an empty request and a request with only an unrecognized
key both yield the empty decision mapping, and a mixed request yields exactly
the recognized present keys. -/
theorem validate_keys_spec_witness :
    validate cfgA storeA [] = []
    ∧ validate cfgA storeA [("invalid_field", "random_user_data")] = []
    ∧ (validate cfgA storeA
        [("invalid_field", "random_user_data"), ("username", "u1"), ("email", "e1")]).map Prod.fst
      = ["email", "username"] := by
  refine ⟨(validate_keys_spec cfgA storeA []).2 (by decide),
    (validate_keys_spec cfgA storeA [("invalid_field", "random_user_data")]).2 (by decide),
    ?_⟩
  rw [(validate_keys_spec cfgA storeA
    [("invalid_field", "random_user_data"), ("username", "u1"), ("email", "e1")]).1]
  rfl

/-- **C6.** For a fixed configuration and store, the decision of each field
depends only on that field's submitted value — except confirm_email, which
may also read the submitted email, and password, which may also read the
submitted username: two requests agreeing on the relevant values get the same
decision for the field, whatever the other fields hold.  (The model is a pure
function of the configuration, store and request, so a single pass is
deterministic for a fixed store state.) -/
theorem field_independence (cfg : ValidatorConfig) (store : Store)
    (req1 req2 : List (String × String)) :
    (∀ f ∈ (["name", "email", "username", "country"] : List String),
        lookupKey f req1 = lookupKey f req2 →
        lookupKey f (validate cfg store req1) = lookupKey f (validate cfg store req2))
    ∧ (lookupKey "confirm_email" req1 = lookupKey "confirm_email" req2 →
        lookupKey "email" req1 = lookupKey "email" req2 →
        lookupKey "confirm_email" (validate cfg store req1)
          = lookupKey "confirm_email" (validate cfg store req2))
    ∧ (lookupKey "password" req1 = lookupKey "password" req2 →
        lookupKey "username" req1 = lookupKey "username" req2 →
        lookupKey "password" (validate cfg store req1)
          = lookupKey "password" (validate cfg store req2)) := by
  refine ⟨?_, ?_, ?_⟩
  · intro f hf h
    have hrec : f ∈ recognizedFields := by
      simp only [recognizedFields]
      simp only [List.mem_cons, List.not_mem_nil, or_false] at hf ⊢
      tauto
    rw [lookupKey_validate cfg store req1 f hrec, lookupKey_validate cfg store req2 f hrec]
    simp only [decisionOf, h]
    simp only [List.mem_cons, List.not_mem_nil, or_false] at hf
    rcases hf with rfl | rfl | rfl | rfl <;>
      cases lookupKey _ req2 <;> rfl
  · intro hce hem
    rw [lookupKey_validate cfg store req1 "confirm_email" (by decide),
      lookupKey_validate cfg store req2 "confirm_email" (by decide)]
    simp only [decisionOf, hce]
    cases lookupKey "confirm_email" req2 with
    | none => rfl
    | some v =>
      show some (validate_confirm_email v (lookupKey "email" req1))
        = some (validate_confirm_email v (lookupKey "email" req2))
      rw [hem]
  · intro hpw hun
    rw [lookupKey_validate cfg store req1 "password" (by decide),
      lookupKey_validate cfg store req2 "password" (by decide)]
    simp only [decisionOf, hpw]
    cases lookupKey "password" req2 with
    | none => rfl
    | some v =>
      show some (validate_password cfg v (lookupKey "username" req1))
        = some (validate_password cfg v (lookupKey "username" req2))
      rw [hun]

/-- Witness for C6: two requests that agree on the email (and on the
password/username pair) but differ on every other field get the same email
and password decisions. -/
theorem field_independence_witness :
    lookupKey "email" (validate cfgA storeA
        [("email", "username@email.com"), ("name", "one")])
      = lookupKey "email" (validate cfgA storeA
        [("name", "two"), ("email", "username@email.com"), ("country", "US")])
    ∧ lookupKey "password" (validate cfgA storeA
        [("password", "pw123"), ("username", "u1"), ("name", "one")])
      = lookupKey "password" (validate cfgA storeA
        [("username", "u1"), ("country", "FR"), ("password", "pw123")]) := by
  exact ⟨(field_independence cfgA storeA
      [("email", "username@email.com"), ("name", "one")]
      [("name", "two"), ("email", "username@email.com"), ("country", "US")]).1
      "email" (by decide) rfl,
    (field_independence cfgA storeA
      [("password", "pw123"), ("username", "u1"), ("name", "one")]
      [("username", "u1"), ("country", "FR"), ("password", "pw123")]).2.2 rfl rfl⟩

/-! ## Helper lemmas for the course batch generator -/

theorem memStr_mem (k : String) (l : List String) : memStr k l = true ↔ k ∈ l := by
  induction l with
  | nil => simp [memStr]
  | cons a rest ih =>
    simp only [memStr, List.mem_cons]
    by_cases h : a = k
    · simp [h]
    · rw [if_neg h, ih]
      constructor
      · exact Or.inr
      · rintro (h2 | h2)
        · exact absurd h2.symm h
        · exact h2

theorem memStr_removeStr_ne (a k : String) (hak : a ≠ k) (l : List String) :
    memStr a (removeStr k l) = memStr a l := by
  induction l with
  | nil => rfl
  | cons b rest ih =>
    by_cases hbk : b = k
    · subst hbk
      simp [removeStr, memStr, Ne.symm hak]
    · simp [removeStr, memStr, hbk, ih]

theorem mem_of_mem_removeStr (a k : String) (l : List String)
    (h : a ∈ removeStr k l) : a ∈ l := by
  induction l with
  | nil => exact absurd h (List.not_mem_nil a)
  | cons b rest ih =>
    by_cases hbk : b = k
    · rw [removeStr, if_pos hbk] at h
      exact List.mem_cons_of_mem b h
    · rw [removeStr, if_neg hbk] at h
      rcases List.mem_cons.mp h with h2 | h2
      · exact List.mem_cons.mpr (Or.inl h2)
      · exact List.mem_cons_of_mem b (ih h2)

theorem removeStr_nodup (k : String) (l : List String) (h : l.Nodup) :
    (removeStr k l).Nodup := by
  induction l with
  | nil => exact List.nodup_nil
  | cons b rest ih =>
    rw [List.nodup_cons] at h
    by_cases hbk : b = k
    · rw [removeStr, if_pos hbk]
      exact h.2
    · rw [removeStr, if_neg hbk]
      exact List.nodup_cons.mpr
        ⟨fun hb => h.1 (mem_of_mem_removeStr b k rest hb), ih h.2⟩

theorem filter_removeStr (k : String) (p : String → Bool) (l : List String)
    (h : l.Nodup) :
    (removeStr k l).filter p = l.filter fun x => if k = x then false else p x := by
  induction l with
  | nil => rfl
  | cons b rest ih =>
    rw [List.nodup_cons] at h
    by_cases hbk : b = k
    · subst hbk
      rw [removeStr, if_pos rfl, List.filter_cons, if_neg (by simp)]
      exact (List.filter_congr fun x hx =>
        if_neg fun hkx : b = x => h.1 (hkx.symm ▸ hx)).symm
    · rw [removeStr, if_neg hbk, List.filter_cons, List.filter_cons, ih h.2]
      rw [if_neg fun hkb : k = b => hbk hkb.symm]

/-- Characterization of the field loop of
`_process_course_fields_settings`. -/
theorem processFieldsLoop_spec (fields : List (String × Option String))
    (avail : List String) (ha : avail.Nodup) (hf : (fields.map Prod.fst).Nodup) :
    (processFieldsLoop avail fields).1
        = fields.filter (fun kv => memStr kv.1 avail && kv.2.isSome)
    ∧ (processFieldsLoop avail fields).2.1
        = (fields.filter (fun kv => !(memStr kv.1 avail))).map Prod.fst
    ∧ (processFieldsLoop avail fields).2.2
        = avail.filter (fun a => !(setsNonNull a fields)) := by
  induction fields generalizing avail with
  | nil =>
    refine ⟨rfl, rfl, ?_⟩
    simp [processFieldsLoop, setsNonNull]
  | cons kv rest ih =>
    obtain ⟨k, v⟩ := kv
    rw [List.map_cons, List.nodup_cons] at hf
    have hkrest : ∀ kv2 ∈ rest, (kv2 : String × Option String).1 ≠ k := by
      intro kv2 h2 hk
      apply hf.1
      rw [← hk]
      exact List.mem_map.mpr ⟨kv2, h2, rfl⟩
    by_cases hmem : memStr k avail = true
    · cases v with
      | none =>
        obtain ⟨A, B, C⟩ := ih avail ha hf.2
        have hloop : processFieldsLoop avail ((k, none) :: rest)
            = processFieldsLoop avail rest := by
          simp only [processFieldsLoop]
          rw [if_pos hmem]
        refine ⟨?_, ?_, ?_⟩
        · rw [hloop, A, List.filter_cons]
          simp
        · rw [hloop, B, List.filter_cons]
          simp [hmem]
        · rw [hloop, C]
          refine List.filter_congr fun a _ => ?_
          by_cases hka : k = a
          · simp [setsNonNull, hka]
          · simp [setsNonNull, hka]
      | some s =>
        obtain ⟨A, B, C⟩ :=
          ih (removeStr k avail) (removeStr_nodup k avail ha) hf.2
        have hloop : processFieldsLoop avail ((k, some s) :: rest)
            = ((k, some s) :: (processFieldsLoop (removeStr k avail) rest).1,
                (processFieldsLoop (removeStr k avail) rest).2.1,
                (processFieldsLoop (removeStr k avail) rest).2.2) := by
          simp only [processFieldsLoop]
          rw [if_pos hmem]
        refine ⟨?_, ?_, ?_⟩
        · rw [hloop]
          simp only [A]
          rw [List.filter_cons]
          rw [if_pos (by simp [hmem])]
          refine congrArg _ (List.filter_congr fun kv2 h2 => ?_)
          rw [memStr_removeStr_ne kv2.1 k (hkrest kv2 h2) avail]
        · rw [hloop]
          simp only [B]
          rw [List.filter_cons]
          rw [if_neg (by simp [hmem])]
          refine congrArg _ (List.filter_congr fun kv2 h2 => ?_)
          rw [memStr_removeStr_ne kv2.1 k (hkrest kv2 h2) avail]
        · rw [hloop]
          simp only [C]
          rw [filter_removeStr k _ avail ha]
          refine List.filter_congr fun a _ => ?_
          by_cases hka : k = a
          · simp [setsNonNull, hka]
          · simp [setsNonNull, hka]
    · obtain ⟨A, B, C⟩ := ih avail ha hf.2
      have hloop : processFieldsLoop avail ((k, v) :: rest)
          = ((processFieldsLoop avail rest).1,
              k :: (processFieldsLoop avail rest).2.1,
              (processFieldsLoop avail rest).2.2) := by
        simp only [processFieldsLoop]
        rw [if_neg hmem]
      refine ⟨?_, ?_, ?_⟩
      · rw [hloop, A, List.filter_cons]
        simp [Bool.not_eq_true] at hmem
        simp [hmem]
      · rw [hloop, B, List.filter_cons]
        simp [Bool.not_eq_true] at hmem
        simp [hmem]
      · rw [hloop, C]
        refine List.filter_congr fun a haa => ?_
        have hka : k ≠ a := fun hk =>
          hmem ((memStr_mem k avail).mpr (hk ▸ haa))
        simp [setsNonNull, hka]

/-- **C8.** `_process_course_fields_settings` keeps exactly the allow-listed
keys with non-null values (in submission order), logs the rejected unknown
keys, and logs as to-be-defaulted exactly the allowed attributes not set to a
non-null value — each info message only when its list is non-empty. -/
theorem process_course_fields_spec (avail : List String)
    (fields : List (String × Option String))
    (ha : avail.Nodup) (hf : (fields.map Prod.fst).Nodup) :
    (process_course_fields_settings avail fields).1
        = fields.filter (fun kv => memStr kv.1 avail && kv.2.isSome)
    ∧ (processFieldsLoop avail fields).2.1
        = (fields.filter (fun kv => !(memStr kv.1 avail))).map Prod.fst
    ∧ (processFieldsLoop avail fields).2.2
        = avail.filter (fun a => !(setsNonNull a fields))
    ∧ (process_course_fields_settings avail fields).2
        = (if ((processFieldsLoop avail fields).2.1).isEmpty then []
           else [Event.infoInvalidFields (processFieldsLoop avail fields).2.1]) ++
          (if ((processFieldsLoop avail fields).2.2).isEmpty then []
           else [Event.infoDefaultedFields (processFieldsLoop avail fields).2.2]) := by
  obtain ⟨A, B, C⟩ := processFieldsLoop_spec fields avail ha hf
  exact ⟨A, B, C, rfl⟩

/-- Witness for C8: on a concrete allow-list and a concrete submitted map
with an allow-listed non-null entry, an unknown key and an allow-listed null
entry, the kept fields, the rejected-keys log and the defaulted-keys log all
evaluate as the theorem states. -/
theorem process_course_fields_spec_witness :
    (process_course_fields_settings availA fieldsW).1
      = fieldsW.filter (fun kv => memStr kv.1 availA && kv.2.isSome)
    ∧ (process_course_fields_settings availA fieldsW).1
      = [("display_name", some "test-course")]
    ∧ (process_course_fields_settings availA fieldsW).2
      = [Event.infoInvalidFields ["invalid_field"],
          Event.infoDefaultedFields
            ["mobile_available", "self_paced", "language", "wiki_slug"]] := by
  exact ⟨(process_course_fields_spec availA fieldsW (by decide) (by decide)).1,
    by decide, by decide⟩

theorem handleCourses_append (a : List String) (l1 l2 : List CourseSettings) :
    handleCourses a (l1 ++ l2) = handleCourses a l1 ++ handleCourses a l2 := by
  induction l1 with
  | nil => rfl
  | cons c rest ih =>
    rw [List.cons_append, handleCourses, handleCourses, ih, List.append_assoc]

/-- **C7.** The per-course loop never raises: with the outer guards passed,
`handle` returns normally, an invalid descriptor contributes only its logged
warnings, and the descriptors after it are processed exactly as they would be
on their own. -/
theorem handleCourses_no_abort (a : List String) (l1 l2 : List CourseSettings)
    (c : CourseSettings) :
    handleCourses a (l1 ++ c :: l2)
      = handleCourses a l1 ++ (processCourse a c ++ handleCourses a l2)
    ∧ handle a true (some (some (l1 ++ c :: l2)))
      = Except.ok (handleCourses a (l1 ++ c :: l2))
    ∧ ((course_is_valid c).1 = false →
        processCourse a c = (course_is_valid c).2 ++ [Event.warnCantCreate])
    ∧ ((course_is_valid c).1 = false →
        Event.warnCantCreate ∈ processCourse a c) := by
  have hskip : (course_is_valid c).1 = false →
      processCourse a c = (course_is_valid c).2 ++ [Event.warnCantCreate] := by
    intro h
    rw [processCourse, if_pos h]
  refine ⟨?_, rfl, hskip, ?_⟩
  · rw [handleCourses_append a l1 (c :: l2), handleCourses]
  · intro h
    rw [hskip h]
    simp

/-- Witness for C7: a list with an invalid descriptor (missing
`organization`) between two valid ones — the command skips it with warnings
and still processes both neighbours, returning normally. -/
theorem handleCourses_no_abort_witness :
    handleCourses availA ([courseA] ++ courseMissingOrg :: [courseA])
      = handleCourses availA [courseA]
        ++ (processCourse availA courseMissingOrg ++ handleCourses availA [courseA])
    ∧ handle availA true (some (some ([courseA] ++ courseMissingOrg :: [courseA])))
      = Except.ok (handleCourses availA ([courseA] ++ courseMissingOrg :: [courseA]))
    ∧ processCourse availA courseMissingOrg
      = (course_is_valid courseMissingOrg).2 ++ [Event.warnCantCreate]
    ∧ Event.warnCantCreate ∈ processCourse availA courseMissingOrg
    ∧ (course_is_valid courseMissingOrg).2
      = [Event.warnMissingSettings ["organization"]] := by
  obtain ⟨h1, h2, h3, h4⟩ :=
    handleCourses_no_abort availA [courseA] [courseA] courseMissingOrg
  exact ⟨h1, h2, h3 (by decide), h4 (by decide), by decide⟩

/-- Every event logged by `_course_is_valid` is a warning, not a creation. -/
theorem course_is_valid_storeOf (c : CourseSettings) :
    ∀ ev ∈ (course_is_valid c).2, ev.storeOf = none := by
  intro ev hev
  have hw : ∀ ev2 ∈ settingsWarnings c, Event.storeOf ev2 = none := by
    intro ev2 hev2
    rw [settingsWarnings] at hev2
    split_ifs at hev2
    · simp at hev2
    · simp at hev2
      subst hev2
      rfl
  rw [course_is_valid] at hev
  split_ifs at hev
  · simp only [List.mem_append, List.mem_singleton] at hev
    rcases hev with hev | rfl
    · exact hw ev hev
    · rfl
  · exact hw ev hev

/-- Every event logged by `_process_course_fields_settings` is an info
message, not a creation. -/
theorem process_course_fields_storeOf (a : List String)
    (fl : List (String × Option String)) :
    ∀ ev ∈ (process_course_fields_settings a fl).2, ev.storeOf = none := by
  intro ev hev
  rw [process_course_fields_settings] at hev
  simp only [List.mem_append] at hev
  rcases hev with hev | hev <;> split_ifs at hev <;> simp at hev <;>
    subst hev <;> rfl

/-- **C9.** The course-creation request is hard-coded to the "split"
modulestore: every creation event carries store "split", a valid descriptor
produces one, and extra JSON keys of the descriptor (such as a `store` value)
change nothing — even though the argument help text advertises a store
value. -/
theorem create_store_hardcoded (a : List String) (c : CourseSettings)
    (e : List (String × String)) :
    processCourse a { c with extra := e } = processCourse a c
    ∧ (∀ ev ∈ processCourse a c, ev.storeOf = some "split" ∨ ev.storeOf = none)
    ∧ ((course_is_valid c).1 = true →
        ∃ ev ∈ processCourse a c, ev.storeOf = some "split")
    ∧ List.IsInfix "store".data coursesArgHelp.data := by
  refine ⟨rfl, ?_, ?_, by decide⟩
  · intro ev hev
    rw [processCourse] at hev
    split_ifs at hev with hv
    · simp only [List.mem_append, List.mem_singleton] at hev
      rcases hev with hev | rfl
      · exact Or.inr (course_is_valid_storeOf c ev hev)
      · exact Or.inr rfl
    · simp only [List.mem_append, List.mem_cons, List.mem_singleton,
        List.not_mem_nil, or_false] at hev
      rcases hev with (hev | hev) | rfl | rfl
      · exact Or.inr (course_is_valid_storeOf c ev hev)
      · exact Or.inr (process_course_fields_storeOf a ((c.fields).getD []) ev hev)
      · exact Or.inl rfl
      · exact Or.inr rfl
  · intro hv
    rw [processCourse, if_neg (by rw [hv]; exact fun h => Bool.true_eq_false.mp h)]
    refine ⟨Event.created "split" ((c.user).getD "edx@example.com")
      ((c.organization).getD "") ((c.number).getD "") ((c.run).getD "")
      (process_course_fields_settings a ((c.fields).getD [])).1, ?_, rfl⟩
    simp

/-- Witness for C9: a valid descriptor carrying an extra `store` key asking
for another store is processed identically to one without it, and the single
creation event it produces goes to "split". -/
theorem create_store_hardcoded_witness :
    processCourse availA { courseA with extra := [("store", "mongo")] }
      = processCourse availA courseA
    ∧ (∃ ev ∈ processCourse availA courseA, ev.storeOf = some "split")
    ∧ (processCourse availA courseA).filterMap Event.storeOf = ["split"]
    ∧ List.IsInfix "store".data coursesArgHelp.data := by
  obtain ⟨h1, _, h3, h4⟩ :=
    create_store_hardcoded availA courseA [("store", "mongo")]
  exact ⟨h1, h3 (by decide), by decide, h4⟩

/-- **C10.** A descriptor whose `fields` map binds `display_name` to null is
treated exactly like one missing `display_name`: `_course_is_valid` is false,
the missing-display-name warning is logged, no creation event is produced,
and the verdict and warnings equal those for the map with `display_name`
removed. -/
theorem display_name_null_is_missing (a : List String) (c : CourseSettings)
    (fl : List (String × Option String))
    (hfl : c.fields = some fl)
    (hdn : lookupKey "display_name" fl = some none) :
    (course_is_valid c).1 = false
    ∧ Event.warnMissingDisplayName ∈ (course_is_valid c).2
    ∧ (∀ ev ∈ processCourse a c, ev.storeOf = none)
    ∧ course_is_valid c
      = course_is_valid { c with fields := some (removeKey "display_name" fl) } := by
  have hdm : displayNameMissing c.fields = true := by
    rw [hfl, displayNameMissing, hdn]
    rfl
  have hdm2 : displayNameMissing ({ c with fields := some (removeKey "display_name" fl) } :
      CourseSettings).fields = true := by
    show displayNameMissing (some (removeKey "display_name" fl)) = true
    rw [displayNameMissing, lookupKey_removeKey]
    rfl
  have hv : course_is_valid c
      = (false, settingsWarnings c ++ [Event.warnMissingDisplayName]) := by
    rw [course_is_valid, if_pos hdm]
  refine ⟨by rw [hv], by rw [hv]; simp, ?_, ?_⟩
  · intro ev hev
    rw [processCourse, if_pos (by rw [hv])] at hev
    simp only [List.mem_append, List.mem_singleton] at hev
    rcases hev with hev | rfl
    · exact course_is_valid_storeOf c ev hev
    · rfl
  · rw [course_is_valid, if_pos hdm, course_is_valid, if_pos hdm2]
    have hsw : settingsWarnings ({ c with fields := some (removeKey "display_name" fl) } :
        CourseSettings) = settingsWarnings c := by
      rw [settingsWarnings, settingsWarnings, missingSettings, missingSettings, hfl]
      rfl
    rw [hsw]

/-- Witness for C10: the concrete descriptor with `display_name: null` is
rejected with the display-name warning, produces no creation event, and is
judged exactly like the same descriptor with `display_name` removed. -/
theorem display_name_null_is_missing_witness :
    (course_is_valid courseNullDisplayName).1 = false
    ∧ Event.warnMissingDisplayName ∈ (course_is_valid courseNullDisplayName).2
    ∧ (processCourse availA courseNullDisplayName).filterMap Event.storeOf = []
    ∧ course_is_valid courseNullDisplayName
      = course_is_valid { courseNullDisplayName with
          fields := some (removeKey "display_name" [("display_name", none)]) } := by
  obtain ⟨h1, h2, _, h4⟩ :=
    display_name_null_is_missing availA courseNullDisplayName
      [("display_name", none)] rfl rfl
  exact ⟨h1, h2, by decide, h4⟩

end EdxPlatform
